import Mathlib

/-!
Verification of the HR ID-card generator (src/app.py) against its
natural-language specification.

The pipeline is embedded shallowly:

* Python string operations (strip, lower, Path.stem) are modelled over
  the character list of a string;
* the scratch-directory listing produced by os.walk is a list of
  (directory, filename) entries in traversal order;
* external libraries (arabic_reshaper, bidi, PIL drawing/measuring,
  cv2 loading and face detection, Code128 encoding) enter as explicit
  function parameters; fallible library calls return Option / Except;
* pandas cell access (row.get with default, NaN stringification) is
  modelled by the Cell type;
* the per-row loop of the main script becomes structural recursion over
  the list of rows, threading the per-row card results.
-/

namespace IdCards

/-- Whitespace test matching what str.strip removes on the inputs at hand. -/
def pyIsSpace (c : Char) : Bool :=
  c = ' ' || c = '\t' || c = '\n' || c = '\r'

/-- Characters of a string with leading and trailing whitespace removed
(Python str.strip). -/
def trimCharsL (l : List Char) : List Char :=
  ((l.dropWhile pyIsSpace).reverse.dropWhile pyIsSpace).reverse

/-- Python str.strip. -/
def pyStrip (s : String) : String := String.mk (trimCharsL s.data)

/-- Python str.lower (ASCII case mapping; the Arabic code points are caseless). -/
def pyLower (s : String) : String := String.mk (s.data.map Char.toLower)

/-- Characters after the last slash (the final path component, Path.name). -/
def afterLastSlash (l : List Char) : List Char :=
  (l.reverse.takeWhile (fun c => c ≠ '/')).reverse

/-- Python pathlib stem on a name: drop the last dot suffix when the last
dot sits strictly inside the name (neither first nor last character),
exactly as PurePath.stem computes it. -/
def pyStemL (name : List Char) : List Char :=
  match name.reverse.findIdx? (fun c => c = '.') with
  | none => name
  | some r =>
    let i := name.length - 1 - r
    if 0 < i ∧ i < name.length - 1 then name.take i else name

/-- Python Path(s).stem. -/
def pyStem (s : String) : String := String.mk (pyStemL (afterLastSlash s.data))

/-- os.path.join of a directory and a file name. -/
def joinPath (d fn : String) : String := d ++ "/" ++ fn

/-- One file met during os.walk: the directory path it lives in and its
name.  A listing (List FSEntry) records the whole traversal in order. -/
structure FSEntry where
  dir : String
  file : String
deriving DecidableEq, Repr

/-- Lower-cased extension-stripped base name of a file name, the key
find_photo_path compares on (fn_stem in the source). -/
def stemKey (s : String) : String := pyLower (pyStem s)

/-- Does a traversal entry match the requested photo name?  The source
compares Path(fn).stem.lower() against Path(requested.strip().lower()).stem.lower(). -/
def photoMatch (requested : String) (e : FSEntry) : Bool :=
  stemKey e.file == pyLower (pyStem (pyLower (pyStrip requested)))

/-- find_photo_path from src/app.py: empty request gives none, otherwise
the first traversal entry whose stem key matches, joined to a path. -/
def find_photo_path (fs : List FSEntry) (requested : String) : Option String :=
  if requested = "" then none
  else fs.findSome? (fun e =>
    if photoMatch requested e then some (joinPath e.dir e.file) else none)

theorem findSome?_guard_eq_find?_map {α β : Type} (p : α → Bool) (g : α → β)
    (l : List α) :
    (l.findSome? (fun a => if p a then some (g a) else none)) = (l.find? p).map g := by
  induction l with
  | nil => rfl
  | cons a t ih =>
    by_cases h : p a <;>
      simp [List.findSome?_cons, List.find?_cons, h, ih]

/-- C4: for every (root listing, requested): an empty requested returns
absent immediately; otherwise the result is the first entry in traversal
order whose base name matches case- and extension-insensitively, joined
into a path; if no entry matches the result is absent; and any returned
path comes from an entry of the traversal (an existing file). -/
theorem find_photo_path_spec (fs : List FSEntry) (requested : String) :
    (requested = "" → find_photo_path fs requested = none) ∧
    (requested ≠ "" →
      find_photo_path fs requested =
        (fs.find? (photoMatch requested)).map (fun e => joinPath e.dir e.file)) ∧
    (requested ≠ "" → (∀ e ∈ fs, photoMatch requested e = false) →
      find_photo_path fs requested = none) ∧
    (∀ p, find_photo_path fs requested = some p →
      ∃ e, e ∈ fs ∧ photoMatch requested e = true ∧ p = joinPath e.dir e.file) := by
  refine ⟨?_, ?_, ?_, ?_⟩
  · intro h
    simp [find_photo_path, h]
  · intro h
    rw [find_photo_path, if_neg h]
    exact findSome?_guard_eq_find?_map _ _ fs
  · intro h hall
    rw [find_photo_path, if_neg h, findSome?_guard_eq_find?_map]
    have : fs.find? (photoMatch requested) = none := by
      rw [List.find?_eq_none]
      intro e he
      exact fun hc => Bool.false_ne_true ((hall e he).symm.trans hc)
    rw [this]
    rfl
  · intro p hp
    by_cases h : requested = ""
    · simp [find_photo_path, h] at hp
    · rw [find_photo_path, if_neg h, findSome?_guard_eq_find?_map] at hp
      match hfind : fs.find? (photoMatch requested) with
      | none => rw [hfind] at hp; simp at hp
      | some e =>
        rw [hfind] at hp
        simp only [Option.map_some', Option.some.injEq] at hp
        exact ⟨e, List.mem_of_find?_eq_some hfind, List.find?_some hfind, hp.symm⟩

/-- Witness for C4: a request differing from the stored file only in case,
surrounding blanks and extension resolves to the first matching entry, and
a request matching nothing resolves to absent. -/
theorem find_photo_path_spec_witness :
    find_photo_path [⟨"root", "B.PNG"⟩, ⟨"root/sub", "b.jpg"⟩] " B.jpeg " =
      some "root/B.PNG" ∧
    find_photo_path [⟨"root", "B.PNG"⟩, ⟨"root/sub", "b.jpg"⟩] "nosuch.png" = none := by
  constructor
  · have h := (find_photo_path_spec [⟨"root", "B.PNG"⟩, ⟨"root/sub", "b.jpg"⟩]
      " B.jpeg ").2.1 (by decide)
    rw [h]
    decide
  · exact (find_photo_path_spec [⟨"root", "B.PNG"⟩, ⟨"root/sub", "b.jpg"⟩]
      "nosuch.png").2.2.1 (by decide) (by decide)

/-- prepare_text from src/app.py.  The reshaper (arabic_reshaper.reshape)
and the bidi reordering (get_display) are explicit parameters returning
Except, since either library call may raise; the source function checks
for falsy input and otherwise calls them with no exception handler, so a
failure propagates out of prepare_text. -/
def prepare_text (reshape display : String → Except Unit String)
    (text : Option String) : Except Unit String :=
  match text with
  | none => Except.ok ""
  | some t =>
    if t = "" then Except.ok ""
    else do
      let r ← reshape t
      display r

/-- Modelled from the spec's words, for comparison with prepare_text: the
spec claims a failure during reshaping or reordering degrades to returning
the original unshaped string instead of propagating. -/
def prepare_text_claimed (reshape display : String → Except Unit String)
    (text : Option String) : String :=
  match text with
  | none => ""
  | some t =>
    if t = "" then ""
    else
      match reshape t >>= display with
      | Except.ok r => r
      | Except.error _ => t

/-- C3 counterexample: with a reshaper that fails on some string,
prepare_text as written propagates the failure out (an exception escaping
into the per-row loop), whereas the claimed behavior would return the
original string "abc". -/
theorem prepare_text_no_fallback :
    prepare_text (fun _ => Except.error ()) (fun s => Except.ok s) (some "abc")
      = Except.error () ∧
    prepare_text_claimed (fun _ => Except.error ()) (fun s => Except.ok s) (some "abc")
      = "abc" := ⟨rfl, rfl⟩

/-- C3 amended: empty or None input yields the empty string without
touching the shaping libraries; for non-empty input prepare_text returns
exactly the reshape-then-reorder result, so a failure in either library
call propagates out of prepare_text (there is no fallback to the original
string in the code). -/
theorem prepare_text_amended (reshape display : String → Except Unit String) :
    prepare_text reshape display none = Except.ok "" ∧
    prepare_text reshape display (some "") = Except.ok "" ∧
    (∀ t, t ≠ "" → prepare_text reshape display (some t) = reshape t >>= display) := by
  refine ⟨rfl, rfl, fun t ht => ?_⟩
  simp [prepare_text, ht]

/-- Witness for C3 amended: a concrete reshaper that reverses the string
is applied to a non-empty input. -/
theorem prepare_text_amended_witness :
    prepare_text (fun s => Except.ok (String.mk s.data.reverse))
      (fun s => Except.ok s) (some "ab") = Except.ok "ba" := by
  have h := (prepare_text_amended (fun s => Except.ok (String.mk s.data.reverse))
    (fun s => Except.ok s)).2.2 "ab" (by decide)
  rw [h]
  rfl

/-- One pandas cell as seen through row.get(column, ""): the column can be
absent from the row (get returns the default ""), present but blank (pandas
parses a blank cell as float NaN, and str(nan) is the string "nan"), or
present with a value (already stringified). -/
inductive Cell where
  | missing
  | nan
  | val (s : String)
deriving DecidableEq, Repr

/-- str(row.get(column, "")). -/
def cellStr : Cell → String
  | Cell.missing => ""
  | Cell.nan => "nan"
  | Cell.val s => s

/-- str(row.get(column, "")).strip(), the field extraction the per-row
loop performs for every column. -/
def fieldOf (c : Cell) : String := pyStrip (cellStr c)

/-- One spreadsheet row with the five columns the loop reads. -/
structure Row where
  name : Cell
  job : Cell
  num : Cell
  national_id : Cell
  photo : Cell
deriving DecidableEq, Repr

/-- Outcome of the barcode block for one row. -/
inductive BarcodeOutcome where
  | drawn (content : Nat)
  | skippedMissing
  | warnFailed
deriving DecidableEq, Repr

/-- Barcode block of the per-row loop: skip with a warning when the
national-id field is empty, otherwise encode (Code128 + save, which may
raise: none) and paste the resized raster. -/
def barcodeStep (encode : String → Option Nat) (resizeB : Nat → Nat)
    (nid : String) : BarcodeOutcome :=
  if nid = "" then BarcodeOutcome.skippedMissing
  else
    match encode nid with
    | some c => BarcodeOutcome.drawn (resizeB c)
    | none => BarcodeOutcome.warnFailed

/-- C2: the code-level failing input for the blank-cell part of the claim:
a blank national-id cell is pandas NaN, whose stringification is the
non-empty string "nan", so with an encoder that succeeds on "nan" the
barcode step draws a barcode instead of skipping; only a missing column
actually behaves as the empty string and skips. -/
theorem blank_national_id_still_gets_barcode :
    fieldOf Cell.nan = "nan" ∧
    barcodeStep (fun _ => some 7) (fun c => c) (fieldOf Cell.nan) =
      BarcodeOutcome.drawn 7 ∧
    barcodeStep (fun _ => some 7) (fun c => c) (fieldOf Cell.missing) =
      BarcodeOutcome.skippedMissing := by
  decide

/-- The part of C2 that does hold of the code, stated on the extracted
field: the barcode step skips (draws nothing) exactly when the extracted
national-id field is empty or encoding fails. -/
theorem barcode_skip_iff (encode : String → Option Nat) (resizeB : Nat → Nat)
    (nid : String) :
    (∀ c, barcodeStep encode resizeB nid ≠ BarcodeOutcome.drawn c) ↔
      (nid = "" ∨ encode nid = none) := by
  constructor
  · intro h
    by_cases he : nid = ""
    · exact Or.inl he
    · right
      match henc : encode nid with
      | none => rfl
      | some c =>
        exact absurd (by simp [barcodeStep, he, henc]) (h (resizeB c))
  · intro h c
    rcases h with h | h
    · simp [barcodeStep, h]
    · simp only [barcodeStep, h]
      split <;> simp

/-- Layout constants from the CONFIG block of src/app.py. -/
def NAME_OFFSET_X : Int := -40

def NAME_OFFSET_Y : Int := -20

def PHOTO_POS : Int × Int := (111, 168)

def PHOTO_SIZE : Nat × Nat := (300, 300)

def BARCODE_POS : Int × Int := (570, 465)

def BARCODE_SIZE : Nat × Nat := (390, 120)

/-- One anchored text drawing call: draw.text((x, y), text, anchor = rt). -/
structure TextDraw where
  x : Int
  y : Int
  text : String
deriving DecidableEq, Repr

/-- Split a character list on newline characters (Python str.split on a
newline), keeping empty pieces. -/
def splitOnNl (l : List Char) : List (List Char) :=
  l.foldr (fun c acc =>
    match acc with
    | [] => [[c]]
    | a :: as => if c = '\n' then [] :: a :: as else (c :: a) :: as) [[]]

/-- Python text.split applied on a newline separator. -/
def pySplitLines (s : String) : List String := (splitOnNl s.data).map String.mk

/-- Continuation lines of draw_aligned_text: before each line after the
first, y advances by the measured bbox height of that line. -/
def drawLinesAux (measure : String → Int) (x : Int) :
    Int → List String → List TextDraw
  | _, [] => []
  | y, l :: ls =>
    let y2 := y + measure l
    ⟨x, y2, l⟩ :: drawLinesAux measure x y2 ls

/-- draw_aligned_text from src/app.py: nothing is drawn for empty text;
otherwise the text is split into lines, the first drawn at xy and each
later line below the previous by its own measured height.  The measure
parameter stands for the height draw.textbbox reports for a string. -/
def draw_aligned_text (measure : String → Int) (xy : Int × Int)
    (text : String) : List TextDraw :=
  if text = "" then []
  else
    match pySplitLines text with
    | [] => []
    | l :: ls => ⟨xy.1, xy.2, l⟩ :: drawLinesAux measure xy.1 xy.2 ls

/-- The four layer offsets of the synthetic bold effect. -/
def boldOffsets : List (Int × Int) := [(0, 0), (1, 0), (0, 1), (1, 1)]

/-- draw_bold_text from src/app.py: the same aligned text drawn four times
at one-pixel offsets. -/
def draw_bold_text (measure : String → Int) (xy : Int × Int)
    (text : String) : List TextDraw :=
  (boldOffsets.map (fun d =>
    draw_aligned_text measure (xy.1 + d.1, xy.2 + d.2) text)).flatten

/-- The three block anchors the per-row loop computes: name at the nudged
base point, job below it by the measured name height plus 20, the
employee-number label below that by the measured job height plus 25. -/
structure Placement where
  nameXY : Int × Int
  jobXY : Int × Int
  idXY : Int × Int
deriving DecidableEq, Repr

/-- Text placement block of the per-row loop (lines 215-237 of src/app.py),
abstracted over the bbox height measure. -/
def textPlacement (measure : String → Int) (name job : String) : Placement :=
  let base : Int × Int := (915, 240)
  let nameXY := (base.1 + NAME_OFFSET_X, base.2 + NAME_OFFSET_Y)
  let nameHeight := measure name + 20
  let jobXY := (nameXY.1, nameXY.2 + nameHeight)
  let jobHeight := measure job + 25
  ⟨nameXY, jobXY, (nameXY.1, jobXY.2 + jobHeight)⟩

/-- C5: the name anchor is (915 - 40, 240 - 20) = (875, 220); the job
anchor shares its x and sits lower by the measured name height plus 20;
the employee-number anchor shares the x and sits lower again by the
measured job height plus 25; the name is drawn with the four-offset bold
effect at its anchor; and for nonnegative measures the three blocks stack
top to bottom in that order. -/
theorem textPlacement_spec (measure : String → Int) (name job : String) :
    (textPlacement measure name job).nameXY = (875, 220) ∧
    (textPlacement measure name job).jobXY = (875, 220 + (measure name + 20)) ∧
    (textPlacement measure name job).idXY =
      (875, 220 + (measure name + 20) + (measure job + 25)) ∧
    (∀ t, t ≠ "" → pySplitLines t = [t] →
      draw_bold_text measure (textPlacement measure name job).nameXY t =
        [⟨875, 220, t⟩, ⟨876, 220, t⟩, ⟨875, 221, t⟩, ⟨876, 221, t⟩]) ∧
    (0 ≤ measure name →
      (textPlacement measure name job).nameXY.2 < (textPlacement measure name job).jobXY.2) ∧
    (0 ≤ measure job →
      (textPlacement measure name job).jobXY.2 < (textPlacement measure name job).idXY.2) := by
  refine ⟨rfl, rfl, rfl, ?_, ?_, ?_⟩
  · intro t ht hlines
    simp [draw_bold_text, boldOffsets, draw_aligned_text, ht, hlines,
      drawLinesAux, textPlacement, NAME_OFFSET_X, NAME_OFFSET_Y]
  · intro h
    simp only [textPlacement, NAME_OFFSET_X, NAME_OFFSET_Y]
    omega
  · intro h
    simp only [textPlacement, NAME_OFFSET_X, NAME_OFFSET_Y]
    omega

/-- Witness for C5: with a constant measure of 30 and single-line texts,
the computed anchors and the four bold layers of the name. -/
theorem textPlacement_spec_witness :
    (textPlacement (fun _ => 30) "n" "j").idXY = (875, 325) ∧
    draw_bold_text (fun _ => 30) (textPlacement (fun _ => 30) "n" "j").nameXY "n" =
      [⟨875, 220, "n"⟩, ⟨876, 220, "n"⟩, ⟨875, 221, "n"⟩, ⟨876, 221, "n"⟩] := by
  constructor
  · have h := (textPlacement_spec (fun _ => 30) "n" "j").2.2.1
    rw [h]
    decide
  · exact (textPlacement_spec (fun _ => 30) "n" "j").2.2.2.1 "n" (by decide) (by decide)

/-- A pixel as a channel triple; for cv2 images the order is (B, G, R). -/
abbrev Pixel := Nat × Nat × Nat

/-- An image as cv2 delivers it: a rectangular row-major pixel matrix. -/
structure CVImage where
  rows : List (List Pixel)
deriving DecidableEq, Repr

/-- img.shape[0], the pixel height. -/
def CVImage.h (img : CVImage) : Nat := img.rows.length

/-- img.shape[1], the pixel width. -/
def CVImage.w (img : CVImage) : Nat := (img.rows.head?.map List.length).getD 0

/-- One detected face region, unpacked in the source as x, y, w, h. -/
structure FaceRect where
  x : Nat
  y : Nat
  w : Nat
  h : Nat
deriving DecidableEq, Repr

/-- Channel reorder cv2.cvtColor(-, COLOR_BGR2RGB) performs per pixel. -/
def bgr2rgb (p : Pixel) : Pixel := (p.2.2, p.2.1, p.1)

/-- crop_face_and_shoulders from src/app.py.  Loading (cv2.imread, none
when unreadable) and the Haar-cascade detector run on the derived
grayscale image are explicit parameters; the detector parameter consumes
the colour image since the grayscale conversion is a deterministic
function of it.  Slicing uses numpy semantics: an empty result when the
lower bound reaches the upper one. -/
def crop_face_and_shoulders (imread : String → Option CVImage)
    (detectFaces : CVImage → List FaceRect) (path : String) :
    Option (List (List Pixel)) :=
  match imread path with
  | none => none
  | some img =>
    match detectFaces img with
    | [] => none
    | f :: _ =>
      let yStart := f.y - 3 * f.h / 10
      let yEnd := min img.h (f.y + 2 * f.h)
      let xStart := f.x - 3 * f.w / 10
      let xEnd := min img.w (f.x + 13 * f.w / 10)
      some (((img.rows.drop yStart).take (yEnd - yStart)).map
        (fun r => ((r.drop xStart).take (xEnd - xStart)).map bgr2rgb))

/-- C6: absent for an unreadable image and for zero detected faces;
otherwise, for the first detected face (x, y, w, h), the result is the
slice with vertical range from y - ⌊0.3 h⌋ to y + 2 h and horizontal range
from x - ⌊0.3 w⌋ to x + ⌊1.3 w⌋, every bound clamped to the image extents
(stated here over the integers, with max/min doing the clamping), with
each pixel converted from BGR to RGB channel order. -/
theorem crop_face_and_shoulders_spec (imread : String → Option CVImage)
    (detectFaces : CVImage → List FaceRect) (path : String) :
    (imread path = none →
      crop_face_and_shoulders imread detectFaces path = none) ∧
    (∀ img, imread path = some img → detectFaces img = [] →
      crop_face_and_shoulders imread detectFaces path = none) ∧
    (∀ img f rest, imread path = some img → detectFaces img = f :: rest →
      crop_face_and_shoulders imread detectFaces path =
        some (((img.rows.drop (Int.toNat (max 0 ((f.y : Int) - 3 * f.h / 10)))).take
            (Int.toNat (min (img.h : Int) ((f.y : Int) + 2 * f.h) -
              max 0 ((f.y : Int) - 3 * f.h / 10)))).map
          (fun r => ((r.drop (Int.toNat (max 0 ((f.x : Int) - 3 * f.w / 10)))).take
            (Int.toNat (min (img.w : Int) ((f.x : Int) + 13 * f.w / 10) -
              max 0 ((f.x : Int) - 3 * f.w / 10)))).map bgr2rgb))) := by
  refine ⟨?_, ?_, ?_⟩
  · intro h
    simp [crop_face_and_shoulders, h]
  · intro img h1 h2
    simp [crop_face_and_shoulders, h1, h2]
  · intro img f rest h1 h2
    have ey : Int.toNat (max 0 ((f.y : Int) - 3 * f.h / 10)) = f.y - 3 * f.h / 10 := by
      omega
    have ex : Int.toNat (max 0 ((f.x : Int) - 3 * f.w / 10)) = f.x - 3 * f.w / 10 := by
      omega
    have eyl : Int.toNat (min (img.h : Int) ((f.y : Int) + 2 * f.h) -
        max 0 ((f.y : Int) - 3 * f.h / 10)) =
        min img.h (f.y + 2 * f.h) - (f.y - 3 * f.h / 10) := by
      omega
    have exl : Int.toNat (min (img.w : Int) ((f.x : Int) + 13 * f.w / 10) -
        max 0 ((f.x : Int) - 3 * f.w / 10)) =
        min img.w (f.x + 13 * f.w / 10) - (f.x - 3 * f.w / 10) := by
      omega
    simp only [crop_face_and_shoulders, h1, h2, ey, ex, eyl, exl]

/-- Witness for C6: a concrete 4 by 4 image with one face at (1, 1, 2, 2)
crops to rows 1 to 3 and columns 1 to 2, channels reversed. -/
theorem crop_face_and_shoulders_spec_witness :
    crop_face_and_shoulders
      (fun _ => some ⟨[[(11, 0, 0), (12, 0, 0), (13, 0, 0), (14, 0, 0)],
                       [(21, 0, 0), (22, 0, 0), (23, 0, 0), (24, 0, 0)],
                       [(31, 0, 0), (32, 0, 0), (33, 0, 0), (34, 0, 0)],
                       [(41, 0, 0), (42, 0, 0), (43, 0, 0), (44, 0, 0)]]⟩)
      (fun _ => [⟨1, 1, 2, 2⟩]) "p.jpg" =
      some [[(0, 0, 22), (0, 0, 23)],
            [(0, 0, 32), (0, 0, 33)],
            [(0, 0, 42), (0, 0, 43)]] := by
  have h := (crop_face_and_shoulders_spec
    (fun _ => some ⟨[[(11, 0, 0), (12, 0, 0), (13, 0, 0), (14, 0, 0)],
                     [(21, 0, 0), (22, 0, 0), (23, 0, 0), (24, 0, 0)],
                     [(31, 0, 0), (32, 0, 0), (33, 0, 0), (34, 0, 0)],
                     [(41, 0, 0), (42, 0, 0), (43, 0, 0), (44, 0, 0)]]⟩)
    (fun _ => [⟨1, 1, 2, 2⟩]) "p.jpg").2.2 _ ⟨1, 1, 2, 2⟩ [] rfl rfl
  rw [h]
  decide

/-- Environment of external collaborators the per-row loop calls into:
the shaping libraries, the bbox measure of the loaded fonts, the walk
listing of the scratch directory (relative to it), the croppers and
loaders (keyed by the file they read, since a file's content does not
depend on the scratch directory's randomly generated name), the resizes
and the Code128 encoder.  Image contents are abstracted as tokens. -/
structure Env where
  reshape : String → Except Unit String
  display : String → Except Unit String
  measure : String → Int
  fs : List FSEntry
  crop : FSEntry → Option Nat
  loadPIL : FSEntry → Option Nat
  resizeP : Nat → Nat
  encode : String → Option Nat
  resizeB : Nat → Nat

/-- Outcome of the photo block for one row. -/
inductive PhotoOutcome where
  | pasted (content : Nat)
  | warnLoadFailed
  | warnNotFound
deriving DecidableEq, Repr

/-- Photo block of the per-row loop: resolve the photo with the stem
match of find_photo_path (the selected entry is the first match of the
traversal, as proved of find_photo_path below); if the face crop returns
absent, fall back to opening the file directly; any load failure
downgrades to a warning. -/
def photoStep (env : Env) (pf : String) : PhotoOutcome :=
  if pf = "" then PhotoOutcome.warnNotFound
  else
    match env.fs.find? (photoMatch pf) with
    | none => PhotoOutcome.warnNotFound
    | some e =>
      match env.crop e with
      | some c => PhotoOutcome.pasted (env.resizeP c)
      | none =>
        match env.loadPIL e with
        | some c => PhotoOutcome.pasted (env.resizeP c)
        | none => PhotoOutcome.warnLoadFailed

/-- One rendered card: the text drawing operations performed on the
template copy and the photo and barcode outcomes. -/
structure Card where
  nameOps : List TextDraw
  jobOps : List TextDraw
  idOps : List TextDraw
  photo : PhotoOutcome
  barcode : BarcodeOutcome
deriving DecidableEq, Repr

/-- One iteration of the per-row loop of src/app.py: extract the five
fields, shape name and job, place and draw the three text blocks, resolve
and paste the photo, generate and paste the barcode.  A shaping failure
propagates (see prepare_text); photo and barcode failures only change the
outcome stored in the card. -/
def processRow (env : Env) (row : Row) : Except Unit Card := do
  let name ← prepare_text env.reshape env.display (some (fieldOf row.name))
  let job ← prepare_text env.reshape env.display (some (fieldOf row.job))
  let num := fieldOf row.num
  let nid := fieldOf row.national_id
  let photo_filename := fieldOf row.photo
  let pl := textPlacement env.measure name job
  let nameOps := draw_bold_text env.measure pl.nameXY name
  let jobOps := draw_aligned_text env.measure pl.jobXY job
  let idLabel ← prepare_text env.reshape env.display (some ("الرقم الوظيفي: " ++ num))
  let idOps := draw_aligned_text env.measure pl.idXY idLabel
  Except.ok ⟨nameOps, jobOps, idOps, photoStep env photo_filename,
    barcodeStep env.encode env.resizeB nid⟩

/-- The per-row loop: one card appended per row, in row order; a row whose
processing raises aborts the whole run (error). -/
def runCards (env : Env) : List Row → Except Unit (List Card)
  | [] => Except.ok []
  | r :: rs =>
    match processRow env r with
    | Except.error e => Except.error e
    | Except.ok c =>
      match runCards env rs with
      | Except.error e => Except.error e
      | Except.ok cs => Except.ok (c :: cs)

/-- C1: whenever the run finishes without a fatal error, the loop has
produced exactly one card per spreadsheet row, whatever warnings the
individual rows incurred. -/
theorem card_count_eq_row_count (env : Env) (rows : List Row)
    (cards : List Card) :
    runCards env rows = Except.ok cards → cards.length = rows.length := by
  induction rows generalizing cards with
  | nil =>
    intro h
    simp only [runCards, Except.ok.injEq] at h
    simp [← h]
  | cons r rs ih =>
    intro h
    simp only [runCards] at h
    match hp : processRow env r with
    | Except.error e => rw [hp] at h; simp at h
    | Except.ok c =>
      rw [hp] at h
      match hr : runCards env rs with
      | Except.error e => rw [hr] at h; simp at h
      | Except.ok cs =>
        rw [hr] at h
        simp only [Except.ok.injEq] at h
        rw [← h]
        simp [ih cs hr]

/-- Witness for C1: a two-row spreadsheet where every row warns (photo
never found, barcode skipped on the first row and failing to encode on the
second) still yields exactly two cards. -/
theorem card_count_eq_row_count_witness :
    ∃ cards, runCards
      ⟨Except.ok, Except.ok, fun _ => 0, [], fun _ => none, fun _ => none,
        id, fun _ => none, id⟩
      [⟨Cell.missing, Cell.missing, Cell.missing, Cell.missing, Cell.missing⟩,
       ⟨Cell.missing, Cell.missing, Cell.missing, Cell.val "x", Cell.val "p.png"⟩] =
        Except.ok cards ∧ cards.length = 2 := by
  refine ⟨_, rfl, ?_⟩
  exact card_count_eq_row_count
    ⟨Except.ok, Except.ok, fun _ => 0, [], fun _ => none, fun _ => none,
      id, fun _ => none, id⟩
    [⟨Cell.missing, Cell.missing, Cell.missing, Cell.missing, Cell.missing⟩,
     ⟨Cell.missing, Cell.missing, Cell.missing, Cell.val "x", Cell.val "p.png"⟩]
    _ rfl

/-- The randomly generated scratch directory name (tempfile.mkdtemp with
the idcards prefix), as a function of the generator's state. -/
def tmpdirName (seed : Nat) : String := "idcards_" ++ Nat.repr seed

/-- The randomly generated per-row barcode temp file base name
(tempfile.NamedTemporaryFile with the .png suffix stripped). -/
def barcodeTmpName (seed idx : Nat) : String :=
  "tmp" ++ Nat.repr seed ++ "_" ++ Nat.repr idx

/-- Barcode block with the filesystem round trip made explicit: the
raster is saved under the generated temp name and read back from that
same name before being resized and pasted. -/
def barcodeStepSeeded (encode : String → Option Nat) (resizeB : Nat → Nat)
    (tmpname : String) (nid : String) : BarcodeOutcome :=
  if nid = "" then BarcodeOutcome.skippedMissing
  else
    match encode nid with
    | some c =>
      match [(tmpname ++ ".png", c)].lookup (tmpname ++ ".png") with
      | some c2 => BarcodeOutcome.drawn (resizeB c2)
      | none => BarcodeOutcome.warnFailed
    | none => BarcodeOutcome.warnFailed

theorem barcodeStepSeeded_eq (encode : String → Option Nat)
    (resizeB : Nat → Nat) (tmpname nid : String) :
    barcodeStepSeeded encode resizeB tmpname nid = barcodeStep encode resizeB nid := by
  simp only [barcodeStepSeeded, barcodeStep]
  by_cases h : nid = ""
  · simp [h]
  · simp only [h, if_false]
    match encode nid with
    | some c => simp [List.lookup]
    | none => rfl

/-- processRow with the generated barcode temp name threaded through. -/
def processRowSeeded (seed idx : Nat) (env : Env) (row : Row) :
    Except Unit Card := do
  let name ← prepare_text env.reshape env.display (some (fieldOf row.name))
  let job ← prepare_text env.reshape env.display (some (fieldOf row.job))
  let num := fieldOf row.num
  let nid := fieldOf row.national_id
  let photo_filename := fieldOf row.photo
  let pl := textPlacement env.measure name job
  let nameOps := draw_bold_text env.measure pl.nameXY name
  let jobOps := draw_aligned_text env.measure pl.jobXY job
  let idLabel ← prepare_text env.reshape env.display (some ("الرقم الوظيفي: " ++ num))
  let idOps := draw_aligned_text env.measure pl.idXY idLabel
  Except.ok ⟨nameOps, jobOps, idOps, photoStep env photo_filename,
    barcodeStepSeeded env.encode env.resizeB (barcodeTmpName seed idx) nid⟩

theorem processRowSeeded_eq (seed idx : Nat) (env : Env) (row : Row) :
    processRowSeeded seed idx env row = processRow env row := by
  simp only [processRowSeeded, processRow, barcodeStepSeeded_eq]

/-- The loop with the random names threaded: row i uses the i-th generated
barcode temp name. -/
def runSeededAux (seed : Nat) (env : Env) : Nat → List Row → Except Unit (List Card)
  | _, [] => Except.ok []
  | idx, r :: rs =>
    match processRowSeeded seed idx env r with
    | Except.error e => Except.error e
    | Except.ok c =>
      match runSeededAux seed env (idx + 1) rs with
      | Except.error e => Except.error e
      | Except.ok cs => Except.ok (c :: cs)

/-- The whole run as a function of the temp-name generator state. -/
def runSeeded (seed : Nat) (env : Env) (rows : List Row) :
    Except Unit (List Card) :=
  runSeededAux seed env 0 rows

theorem runSeededAux_eq (seed : Nat) (env : Env) (rows : List Row) :
    ∀ idx, runSeededAux seed env idx rows = runCards env rows := by
  induction rows with
  | nil => intro idx; rfl
  | cons r rs ih =>
    intro idx
    simp only [runSeededAux, runCards, processRowSeeded_eq, ih (idx + 1)]

/-- The walk listing of the scratch directory with its generated name
prefixed onto every directory, as os.walk(tmpdir) reports it. -/
def absFS (tmpdir : String) (fs : List FSEntry) : List FSEntry :=
  fs.map (fun e => ⟨joinPath tmpdir e.dir, e.file⟩)

theorem photoMatch_absFS (tmpdir : String) (requested : String) (e : FSEntry) :
    photoMatch requested ⟨joinPath tmpdir e.dir, e.file⟩ = photoMatch requested e := rfl

/-- C9: the produced card sequence does not depend on the temp-name
generator state: any two runs on the same inputs agree, and both equal
the generator-free run; moreover the scratch directory's generated name
shifts every resolved photo path by a uniform prefix without changing
which file is resolved, so identically seeded traversals and arbitrary
seeds yield the same cards. -/
theorem run_output_seed_independent (env : Env) (rows : List Row) :
    (∀ seed1 seed2, runSeeded seed1 env rows = runSeeded seed2 env rows) ∧
    (∀ seed, runSeeded seed env rows = runCards env rows) ∧
    (∀ tmpdir requested,
      find_photo_path (absFS tmpdir env.fs) requested =
        (find_photo_path env.fs requested).map (fun p => joinPath tmpdir p)) := by
  have hrun : ∀ seed, runSeeded seed env rows = runCards env rows :=
    fun seed => runSeededAux_eq seed env rows 0
  refine ⟨fun s1 s2 => (hrun s1).trans (hrun s2).symm, hrun, ?_⟩
  intro tmpdir requested
  by_cases h : requested = ""
  · simp [find_photo_path, h]
  · simp only [find_photo_path, h, if_false, absFS]
    induction env.fs with
    | nil => rfl
    | cons e t ih =>
      simp only [List.map_cons, List.findSome?_cons]
      by_cases hm : photoMatch requested e
      · have : photoMatch requested ⟨joinPath tmpdir e.dir, e.file⟩ = true := hm
        simp only [this, hm, if_true]
        simp [joinPath, String.append_assoc]
      · have : photoMatch requested ⟨joinPath tmpdir e.dir, e.file⟩ = false := by
          simp only [photoMatch_absFS]
          exact Bool.of_not_eq_true hm
        simp only [this, Bool.of_not_eq_true hm, if_false, ih]
        simp [ih]

/-- The walk listing of the scratch directory after extraction: the
uploaded archive file itself was written into the scratch directory
(lines 171 to 174 of src/app.py) before extracting into the same
directory, so the traversal lists it at the root, ahead of the files
extracted into subdirectories. -/
def walkListing (archiveName : String) (extracted : List FSEntry) : List FSEntry :=
  ⟨".", archiveName⟩ :: extracted

/-- C10: with the archive named photos.zip and an extracted photo
pics/photos.png, a requested photo name whose stem is photos resolves to
the archive file itself (first in traversal order, shadowing the real
photo), and the photo block then fails to load it (cv2 cannot read it,
PIL raises) and ends in the per-record load warning instead of pasting. -/
theorem archive_file_shadows_photo :
    find_photo_path (walkListing "photos.zip" [⟨"./pics", "photos.png"⟩])
      "Photos.JPG" = some "./photos.zip" ∧
    photoStep
      ⟨Except.ok, Except.ok, fun _ => 0,
        walkListing "photos.zip" [⟨"./pics", "photos.png"⟩],
        fun e => if e.file = "photos.zip" then none else some 5,
        fun e => if e.file = "photos.zip" then none else some 5,
        id, fun _ => none, id⟩
      "Photos.JPG" = PhotoOutcome.warnLoadFailed ∧
    (∀ detectFaces, crop_face_and_shoulders (fun _ => none) detectFaces
      "./photos.zip" = none) := by
  refine ⟨by decide, by decide, fun d => rfl⟩

/-- One mutating operation on a PIL image: an anchored text draw (via the
ImageDraw bound to it) or a paste at a position. -/
inductive DrawCmd where
  | text (t : TextDraw)
  | paste (content : Nat) (pos : Int × Int)
deriving DecidableEq, Repr

/-- A heap-allocated image: the content it started from and the log of
operations applied to it since. -/
structure PImage where
  base : Nat
  ops : List DrawCmd
deriving DecidableEq, Repr

/-- A heap of PIL images, modelling that Image objects are mutable and
aliased by reference: ids index the heap and drawing mutates in place. -/
structure Store where
  next : Nat
  heap : Nat → Option PImage

/-- template.copy(): allocate a fresh image with the same content. -/
def Store.copy (s : Store) (src : Nat) : Nat × Store :=
  match s.heap src with
  | some img =>
    (s.next, ⟨s.next + 1, fun i => if i = s.next then some img else s.heap i⟩)
  | none => (s.next, ⟨s.next + 1, s.heap⟩)

/-- Mutate the image at an id by appending one operation to its log. -/
def Store.draw (s : Store) (id : Nat) (c : DrawCmd) : Store :=
  ⟨s.next, fun i =>
    if i = id then (s.heap id).map (fun img => ⟨img.base, img.ops ++ [c]⟩)
    else s.heap i⟩

/-- Apply a row's drawing operations, in order, to one image. -/
def applyCmds : Store → Nat → List DrawCmd → Store
  | s, _, [] => s
  | s, id, c :: cs => applyCmds (s.draw id c) id cs

/-- One iteration of the loop as it touches the heap: copy the template
and apply all of the row's draws and pastes to the copy only. -/
def processRowStore (tplId : Nat) (s : Store) (ops : List DrawCmd) : Store :=
  let idAndStore := s.copy tplId
  applyCmds idAndStore.2 idAndStore.1 ops

/-- The whole loop over the heap: each row gets its own template copy. -/
def runStore (tplId : Nat) : Store → List (List DrawCmd) → Store
  | s, [] => s
  | s, ops :: rest => runStore tplId (processRowStore tplId s ops) rest

theorem applyCmds_heap_ne (id i : Nat) (hne : i ≠ id) :
    ∀ (cs : List DrawCmd) (s : Store),
      (applyCmds s id cs).heap i = s.heap i ∧ (applyCmds s id cs).next = s.next := by
  intro cs
  induction cs with
  | nil => intro s; exact ⟨rfl, rfl⟩
  | cons c cs ih =>
    intro s
    refine ⟨((ih (s.draw id c)).1).trans ?_, ((ih (s.draw id c)).2).trans rfl⟩
    simp [Store.draw, hne]

theorem processRowStore_frame (tplId : Nat) (s : Store) (ops : List DrawCmd)
    (i : Nat) (hi : i < s.next) :
    (processRowStore tplId s ops).heap i = s.heap i ∧
      s.next < (processRowStore tplId s ops).next := by
  have hne : i ≠ s.next := Nat.ne_of_lt hi
  simp only [processRowStore, Store.copy]
  match h : s.heap tplId with
  | some img =>
    have h1 := applyCmds_heap_ne s.next i hne ops
      ⟨s.next + 1, fun j => if j = s.next then some img else s.heap j⟩
    refine ⟨h1.1.trans ?_, ?_⟩
    · simp [hne]
    · rw [h1.2]
      show s.next < s.next + 1
      omega
  | none =>
    have h1 := applyCmds_heap_ne s.next i hne ops ⟨s.next + 1, s.heap⟩
    refine ⟨h1.1, ?_⟩
    rw [h1.2]
    show s.next < s.next + 1
    omega

/-- C7: the shared template image is never mutated by the loop: whatever
draws and pastes each row performs, they all land on that row's fresh
copy, so every image already allocated before the loop, the template in
particular, is byte-identical afterwards. -/
theorem template_never_mutated (tplId : Nat) (s : Store)
    (rowsOps : List (List DrawCmd)) :
    (∀ i, i < s.next → (runStore tplId s rowsOps).heap i = s.heap i) ∧
    (tplId < s.next → (runStore tplId s rowsOps).heap tplId = s.heap tplId) := by
  have main : ∀ (ls : List (List DrawCmd)) (st : Store) (i : Nat), i < st.next →
      (runStore tplId st ls).heap i = st.heap i := by
    intro ls
    induction ls with
    | nil => intro st i _; rfl
    | cons ops rest ih =>
      intro st i hi
      have hf := processRowStore_frame tplId st ops i hi
      calc (runStore tplId (processRowStore tplId st ops) rest).heap i
          = (processRowStore tplId st ops).heap i :=
            ih (processRowStore tplId st ops) i (lt_trans hi hf.2)
        _ = st.heap i := hf.1
  exact ⟨main rowsOps s, fun h => main rowsOps s tplId h⟩

/-- Witness for C7: a store holding only the template at id 0, two rows
of operations; the template's heap cell is untouched. -/
theorem template_never_mutated_witness :
    (runStore 0 ⟨1, fun i => if i = 0 then some ⟨0, []⟩ else none⟩
      [[DrawCmd.text ⟨875, 220, "n"⟩], [DrawCmd.paste 5 PHOTO_POS]]).heap 0 =
      some ⟨0, []⟩ := by
  have h := (template_never_mutated 0
    ⟨1, fun i => if i = 0 then some ⟨0, []⟩ else none⟩
    [[DrawCmd.text ⟨875, 220, "n"⟩], [DrawCmd.paste 5 PHOTO_POS]]).2
    (by decide)
  rw [h]
  rfl

/-- The three archive suffix cases the extraction block distinguishes. -/
inductive ArchiveKind where
  | zip
  | rar
  | other
deriving DecidableEq, Repr

/-- How the barcode block of one row fares, as far as temp files go:
no temp file is created when the national id is empty; a successful
encode removes the written raster files; a Code128 failure raised after
NamedTemporaryFile already created the file is swallowed by the except
with no removal. -/
inductive RowBarcodeFate where
  | noId
  | encodeOk
  | encodeFail
deriving DecidableEq, Repr

def rowTempLeft : RowBarcodeFate → Nat
  | RowBarcodeFate.encodeFail => 1
  | _ => 0

/-- Temp barcode raster files still on disk after the loop. -/
def leftoverTemps (rows : List RowBarcodeFate) : Nat :=
  (rows.map rowTempLeft).sum

/-- A run as far as run-scoped temporary resources go. -/
structure RunInput where
  archive : ArchiveKind
  extractOk : Bool
  rows : List RowBarcodeFate
  pdfOk : Bool
deriving DecidableEq, Repr

/-- Which run-scoped temporary resources exist when the run ends. -/
structure ResState where
  tmpdirExists : Bool
  barcodeTempsLeft : Nat
deriving DecidableEq, Repr

/-- Resource lifecycle of the main block of src/app.py, entered after the
spreadsheet and template were read: mkdtemp creates the scratch directory
and the archive is written into it; an unsupported archive suffix or a
failed extraction removes the directory and stops; otherwise the loop
runs and the PDF is written into the scratch directory, and no path after
that point, the PDF-failure branch included, removes anything. -/
def runRes (inp : RunInput) : ResState :=
  match inp.archive with
  | ArchiveKind.other => ⟨false, 0⟩
  | _ =>
    if inp.extractOk then ⟨true, leftoverTemps inp.rows⟩
    else ⟨false, 0⟩

/-- C8 counterexample: a fully successful zip run ends with the scratch
directory still on disk, and a run whose single row failed to encode its
barcode additionally leaves that row's temp raster behind. -/
theorem scratch_dir_survives_successful_run :
    runRes ⟨ArchiveKind.zip, true, [RowBarcodeFate.encodeOk], true⟩ = ⟨true, 0⟩ ∧
    runRes ⟨ArchiveKind.zip, true, [RowBarcodeFate.encodeFail], true⟩ = ⟨true, 1⟩ := by
  decide

/-- C8 amended: the scratch directory is removed exactly on the
archive-failure paths (unsupported suffix, failed extraction), which also
precede any barcode temp file; once the loop is reached the scratch
directory survives the run, success and PDF failure alike, and each row
whose barcode encoding raised leaves one temp raster file. -/
theorem temp_resource_cleanup_amended (inp : RunInput) :
    (inp.archive = ArchiveKind.other → runRes inp = ⟨false, 0⟩) ∧
    (inp.extractOk = false → runRes inp = ⟨false, 0⟩) ∧
    (inp.archive ≠ ArchiveKind.other → inp.extractOk = true →
      (runRes inp).tmpdirExists = true ∧
      (runRes inp).barcodeTempsLeft = leftoverTemps inp.rows) := by
  refine ⟨?_, ?_, ?_⟩
  · intro h
    simp [runRes, h]
  · intro h
    match ha : inp.archive with
    | ArchiveKind.other => simp [runRes, ha]
    | ArchiveKind.zip => simp [runRes, ha, h]
    | ArchiveKind.rar => simp [runRes, ha, h]
  · intro ha he
    match hk : inp.archive with
    | ArchiveKind.other => exact absurd hk ha
    | ArchiveKind.zip => exact by simp [runRes, hk, he]
    | ArchiveKind.rar => exact by simp [runRes, hk, he]

/-- Witness for C8 amended: a failed rar extraction deletes the scratch
directory; a successful zip run keeps it. -/
theorem temp_resource_cleanup_amended_witness :
    runRes ⟨ArchiveKind.rar, false, [], true⟩ = ⟨false, 0⟩ ∧
    (runRes ⟨ArchiveKind.zip, true, [RowBarcodeFate.noId], false⟩).tmpdirExists = true := by
  constructor
  · exact (temp_resource_cleanup_amended ⟨ArchiveKind.rar, false, [], true⟩).2.1 rfl
  · exact ((temp_resource_cleanup_amended
      ⟨ArchiveKind.zip, true, [RowBarcodeFate.noId], false⟩).2.2 (by decide) rfl).1

end IdCards
